import Mathlib

/-!
Verification of the warp smart-contract evaluation core.

The repository's visible slice contains `SmartWeaveBuilder` (embedded below
from `src/contract/SmartWeaveBuilder.ts`) and integration tests.  The
evaluation pipeline itself (InteractionsSorter, StateEvaluator, HandlerApi,
foreign reads, dry-run) is not part of the visible sources, so it is
modelled here from the design document, faithful to its words.
-/

/-- Modelled from the spec: an `Interaction` record
`{id, owner, blockHeight, sortKey, input, contractId}` (§3).  Identifiers,
addresses and JSON payloads are opaque to ordering and bookkeeping, so they
are represented by naturals; `sortKey` is a byte sequence. -/
structure Interaction where
  id : Nat
  owner : Nat
  blockHeight : Nat
  sortKey : List Nat
  input : Nat
  contractId : Nat
  deriving DecidableEq

/-- Modelled from the spec: the fixed byte-lexicographic comparison used as
the sortKey tie-break (§4.1). -/
def bytesLe : List Nat → List Nat → Bool
  | [], _ => true
  | _ :: _, [] => false
  | a :: as, b :: bs => if a < b then true else if b < a then false else bytesLe as bs

/-- Modelled from the spec: the sorter's comparison — primary key
`blockHeight` ascending, tie-break `sortKey` ascending byte-lexicographic
(§4.1). -/
def interactionLe (i j : Interaction) : Bool :=
  if i.blockHeight < j.blockHeight then true
  else if j.blockHeight < i.blockHeight then false
  else bytesLe i.sortKey j.sortKey

/-- The sorter's comparison as a relation. -/
def sortRel (i j : Interaction) : Prop := interactionLe i j = true

instance : DecidableRel sortRel := fun i j => by
  unfold sortRel
  infer_instance

/-- Modelled from the spec: the InteractionsSorter — a pure function imposing
the deterministic total order of §4.1, realised by insertion sort over
`sortRel`. -/
def sortInteractions (l : List Interaction) : List Interaction :=
  List.insertionSort sortRel l

/-- The ordering key of an interaction: (blockHeight, sortKey). -/
def ikey (i : Interaction) : Nat × List Nat := (i.blockHeight, i.sortKey)

/-- Strict version of the sorter's comparison: the comparison holds and the
ordering keys differ. -/
def sortRelStrict (i j : Interaction) : Prop := sortRel i j ∧ ikey i ≠ ikey j

/-- Modelled from the spec: the `type` discriminator of an
`InteractionResult` — `enum{ok, error, exception}` (§3). -/
inductive ResultType
  | ok
  | error
  | exception
  deriving DecidableEq

/-- Modelled from the spec: `InteractionResult =
{type, state, result, errorMessage, gasUsed}` — the outcome of applying
exactly one interaction (§3).  The contract state type `S` is a parameter;
`result` is an opaque JSON value represented by a natural. -/
structure InteractionResult (S : Type) where
  type : ResultType
  state : S
  result : Option Nat
  errorMessage : Option String
  gasUsed : Nat
  deriving DecidableEq

/-- Modelled from the spec: `EvaluationState =
{state, validity, errorMessages, lastEvaluatedBlockHeight}` (§3).  The
`validity` and `errorMessages` mappings are association lists keyed by
interaction id, appended in replay order. -/
structure EvaluationState (S : Type) where
  state : S
  validity : List (Nat × Bool)
  errorMessages : List (Nat × String)
  lastEvaluatedBlockHeight : Nat
  deriving DecidableEq

/-- Modelled from the spec: `CacheEntry = {blockHeight, sortKey, state}`
(§3), an ordered sequence of checkpoints per contract. -/
structure CacheEntry (S : Type) where
  blockHeight : Nat
  sortKey : List Nat
  state : EvaluationState S
  deriving DecidableEq

/-- The accumulator a cold evaluation starts from: the contract's initial
state with empty validity and error ledgers. -/
def initialEvalState {S : Type} (initState : S) : EvaluationState S :=
  { state := initState, validity := [], errorMessages := [], lastEvaluatedBlockHeight := 0 }

/-- Modelled from the spec: step 4 of `StateEvaluator.eval` (§4.5) — feed one
interaction to the handler; record validity (`true` iff `type=ok`) and, for
non-ok outcomes, the `errorMessage`, into the accumulator; on `ok`, replace
accumulator state with the result state. -/
def applyInteraction {S : Type} (handle : S → Interaction → InteractionResult S)
    (acc : EvaluationState S) (i : Interaction) : EvaluationState S :=
  if (handle acc.state i).type = ResultType.ok then
    { acc with
      state := (handle acc.state i).state
      validity := acc.validity ++ [(i.id, true)] }
  else
    { acc with
      validity := acc.validity ++ [(i.id, false)]
      errorMessages := acc.errorMessages ++ [(i.id, (handle acc.state i).errorMessage.getD "")] }

/-- Modelled from the spec: cache lookup — "the highest checkpoint at height
≤ `toHeight`" (§4.5 step 2). -/
def findCheckpoint {S : Type} (cache : List (CacheEntry S)) (toHeight : Nat) :
    Option (CacheEntry S) :=
  cache.foldl
    (fun best e =>
      if e.blockHeight ≤ toHeight then
        match best with
        | none => some e
        | some b => if b.blockHeight < e.blockHeight then some e else some b
      else best)
    none

/-- Height-range membership for interaction loading: interactions in
`(checkpointHeight, toHeight]`, or all of `[0, toHeight]` on a cold start
(§4.5 step 3). -/
def inRange (lower : Option Nat) (toHeight h : Nat) : Bool :=
  match lower with
  | none => decide (h ≤ toHeight)
  | some c => decide (c < h) && decide (h ≤ toHeight)

/-- Modelled from the spec: `StateEvaluator.eval(contractId, toHeight,
options)` (§4.5) — consult the cache for the highest checkpoint ≤ `toHeight`
and resume from it when `useCache`, load and sort the interactions in range,
fold them through the handler, and persist a final checkpoint covering
`toHeight`.  `interactions` stands for the full ledger history of the
contract as returned by the InteractionsLoader. -/
def eval {S : Type} (handle : S → Interaction → InteractionResult S) (initState : S)
    (interactions : List Interaction) (cache : List (CacheEntry S))
    (toHeight : Nat) (useCache : Bool) :
    EvaluationState S × List (CacheEntry S) :=
  let cp := if useCache then findCheckpoint cache toHeight else none
  let start :=
    match cp with
    | some e => e.state
    | none => initialEvalState initState
  let lower := cp.map fun e => e.blockHeight
  let todo := interactions.filter fun i => inRange lower toHeight i.blockHeight
  let sorted := sortInteractions todo
  let folded := sorted.foldl (applyInteraction handle) start
  let final := { folded with lastEvaluatedBlockHeight := toHeight }
  let ck :=
    match sorted.getLast? with
    | some i => i.sortKey
    | none => []
  (final, cache ++ [{ blockHeight := toHeight, sortKey := ck, state := final }])

/-- Modelled from the spec: dry-run (`viewState`/`dryWrite`, §4.5) — executes
exactly the evaluation pipeline but for a single synthetic interaction
appended ephemerally after the real cached/loaded history, and never
persists its result to the cache or to any checkpoint. -/
def viewState {S : Type} (handle : S → Interaction → InteractionResult S) (initState : S)
    (interactions : List Interaction) (cache : List (CacheEntry S))
    (toHeight : Nat) (synthetic : Interaction) :
    InteractionResult S × List (CacheEntry S) :=
  let cp := findCheckpoint cache toHeight
  let start :=
    match cp with
    | some e => e.state
    | none => initialEvalState initState
  let lower := cp.map fun e => e.blockHeight
  let todo := interactions.filter fun i => inRange lower toHeight i.blockHeight
  let sorted := sortInteractions todo
  let folded := sorted.foldl (applyInteraction handle) start
  (handle folded.state synthetic, cache)

/-- The state component of the fold, ignoring bookkeeping: the accumulator
state is replaced only on `ok` outcomes. -/
def stateFold {S : Type} (handle : S → Interaction → InteractionResult S) (s : S) :
    List Interaction → S
  | [] => s
  | i :: rest =>
    if (handle s i).type = ResultType.ok then stateFold handle (handle s i).state rest
    else stateFold handle s rest

/-- The validity records appended during a fold: one entry per interaction,
`true` iff the handler returned `type=ok` on the state accumulated so far. -/
def validityTrace {S : Type} (handle : S → Interaction → InteractionResult S) (s : S) :
    List Interaction → List (Nat × Bool)
  | [] => []
  | i :: rest =>
    if (handle s i).type = ResultType.ok then
      (i.id, true) :: validityTrace handle (handle s i).state rest
    else
      (i.id, false) :: validityTrace handle s rest

/-- The error-message records appended during a fold: one entry per non-ok
interaction, carrying the handler's `errorMessage`. -/
def errorTrace {S : Type} (handle : S → Interaction → InteractionResult S) (s : S) :
    List Interaction → List (Nat × String)
  | [] => []
  | i :: rest =>
    if (handle s i).type = ResultType.ok then errorTrace handle (handle s i).state rest
    else (i.id, (handle s i).errorMessage.getD "") :: errorTrace handle s rest

/-- Modelled from the spec: the raw outcome of running contract logic inside
the sandbox, before the HandlerApi's gas accounting and classification
(§4.4): normal completion with new state, optional result and gas consumed;
a contract-raised logical error; or a host/environment failure (malformed
input, sandbox fault). -/
inductive RawOutcome (S : Type)
  | success (state : S) (result : Option Nat) (gasUsed : Nat)
  | contractError (msg : String) (gasUsed : Nat)
  | hostFailure (msg : String) (gasUsed : Nat)
  deriving DecidableEq

/-- Gas consumed by a raw sandbox outcome. -/
def rawGasUsed {S : Type} : RawOutcome S → Nat
  | RawOutcome.success _ _ g => g
  | RawOutcome.contractError _ g => g
  | RawOutcome.hostFailure _ g => g

/-- Modelled from the spec: `HandlerApi.handle` (§4.4) — runs the sandboxed
contract logic, charges gas against `options.gasLimit` (exceeding it aborts
with `type=exception` and an errorMessage reporting used/limit, state rolled
back to `priorState`), classifies a contract-raised logical error as
`type=error` and a host/environment failure as `type=exception`, both rolled
back to `priorState`; a normal completion is `type=ok`. -/
def mkHandle {S : Type} (run : S → Interaction → RawOutcome S) (gasLimit : Nat)
    (priorState : S) (i : Interaction) : InteractionResult S :=
  if gasLimit < rawGasUsed (run priorState i) then
    { type := ResultType.exception
      state := priorState
      result := none
      errorMessage := some ("Out of gas! Used: " ++ toString (rawGasUsed (run priorState i)) ++
        ", limit: " ++ toString gasLimit)
      gasUsed := rawGasUsed (run priorState i) }
  else
    match run priorState i with
    | RawOutcome.success st res g =>
      { type := ResultType.ok, state := st, result := res, errorMessage := none, gasUsed := g }
    | RawOutcome.contractError m g =>
      { type := ResultType.error, state := priorState, result := none,
        errorMessage := some m, gasUsed := g }
    | RawOutcome.hostFailure m g =>
      { type := ResultType.exception, state := priorState, result := none,
        errorMessage := some m, gasUsed := g }

/-- Modelled from the spec: `context.readContract` with an explicit
call-depth counter threaded through the execution context (§4.4, §9).
`reads cid` gives the foreign contract that evaluating `cid` reads, if any;
exceeding `maxCallDepth` fails with `CallDepthExceededError`. -/
def readContractD (reads : Nat → Option Nat) (maxCallDepth : Nat) (depth : Nat)
    (cid : Nat) : Except String Unit :=
  if maxCallDepth < depth then Except.error "CallDepthExceededError"
  else
    match reads cid with
    | none => Except.ok ()
    | some foreign => readContractD reads maxCallDepth (depth + 1) foreign
  termination_by maxCallDepth + 1 - depth
  decreasing_by simp_wf; omega

/-- Follow `n` foreign-read hops from `cid`; `none` when the chain ends
before `n` hops. -/
def followReads (reads : Nat → Option Nat) : Nat → Nat → Option Nat
  | 0, cid => some cid
  | n + 1, cid =>
    match reads cid with
    | none => none
    | some c => followReads reads n c

/-- Modelled from the spec: an interaction whose contract logic performs a
foreign read of `cid`; a failed read surfaces as `type=exception` carrying
the depth error, with the state rolled back to `priorState`. -/
def handleForeignRead {S : Type} (reads : Nat → Option Nat) (maxCallDepth : Nat)
    (prior : S) (cid : Nat) : InteractionResult S :=
  match readContractD reads maxCallDepth 1 cid with
  | Except.ok _ =>
    { type := ResultType.ok, state := prior, result := none, errorMessage := none, gasUsed := 0 }
  | Except.error m =>
    { type := ResultType.exception, state := prior, result := none,
      errorMessage := some m, gasUsed := 0 }

/-- Embedded from `src/contract/SmartWeaveBuilder.ts`: the `SmartWeave`
facade as the builder constructs it — the arweave client plus the five
pluggable components, each possibly `undefined` (here `Option`).  Component
types are opaque parameters. -/
structure SmartWeave (A D I O E V : Type) where
  arweave : A
  definitionLoader : Option D
  interactionsLoader : Option I
  interactionsSorter : Option O
  executorFactory : Option E
  stateEvaluator : Option V
  deriving DecidableEq

/-- Embedded from `src/contract/SmartWeaveBuilder.ts`: the builder's private
fields — `_arweave` set by the constructor, the five component fields
optional and initially unset. -/
structure SmartWeaveBuilder (A D I O E V : Type) where
  _arweave : A
  _definitionLoader : Option D := none
  _interactionsLoader : Option I := none
  _interactionsSorter : Option O := none
  _executorFactory : Option E := none
  _stateEvaluator : Option V := none
  deriving DecidableEq

/-- Embedded from `src/contract/SmartWeaveBuilder.ts`: the constructor
`new SmartWeaveBuilder(arweave)` — only `_arweave` is set. -/
def mkBuilder {A D I O E V : Type} (arweave : A) : SmartWeaveBuilder A D I O E V :=
  { _arweave := arweave }

/-- Embedded from `src/contract/SmartWeaveBuilder.ts`: `setDefinitionLoader`. -/
def setDefinitionLoader {A D I O E V : Type} (b : SmartWeaveBuilder A D I O E V) (value : D) :
    SmartWeaveBuilder A D I O E V :=
  { b with _definitionLoader := some value }

/-- Embedded from `src/contract/SmartWeaveBuilder.ts`: `setInteractionsLoader`. -/
def setInteractionsLoader {A D I O E V : Type} (b : SmartWeaveBuilder A D I O E V) (value : I) :
    SmartWeaveBuilder A D I O E V :=
  { b with _interactionsLoader := some value }

/-- Embedded from `src/contract/SmartWeaveBuilder.ts`: `setInteractionsSorter`. -/
def setInteractionsSorter {A D I O E V : Type} (b : SmartWeaveBuilder A D I O E V) (value : O) :
    SmartWeaveBuilder A D I O E V :=
  { b with _interactionsSorter := some value }

/-- Embedded from `src/contract/SmartWeaveBuilder.ts`: `setExecutorFactory`. -/
def setExecutorFactory {A D I O E V : Type} (b : SmartWeaveBuilder A D I O E V) (value : E) :
    SmartWeaveBuilder A D I O E V :=
  { b with _executorFactory := some value }

/-- Embedded from `src/contract/SmartWeaveBuilder.ts`: `setStateEvaluator`. -/
def setStateEvaluator {A D I O E V : Type} (b : SmartWeaveBuilder A D I O E V) (value : V) :
    SmartWeaveBuilder A D I O E V :=
  { b with _stateEvaluator := some value }

/-- Embedded from `src/contract/SmartWeaveBuilder.ts`: `build()` — passes the
five component fields, set or not, straight to the `SmartWeave` constructor
with no validation. -/
def build {A D I O E V : Type} (b : SmartWeaveBuilder A D I O E V) : SmartWeave A D I O E V :=
  { arweave := b._arweave
    definitionLoader := b._definitionLoader
    interactionsLoader := b._interactionsLoader
    interactionsSorter := b._interactionsSorter
    executorFactory := b._executorFactory
    stateEvaluator := b._stateEvaluator }

/-- Sample interaction list for concrete witnesses: distinct ids, heights 1
and 2, distinct sortKeys. -/
def sampleInteractions : List Interaction :=
  [⟨1, 0, 1, [1], 10, 9⟩, ⟨2, 0, 2, [2], 20, 9⟩]

/-- Sample pure handler for concrete witnesses over `S = Nat`. -/
def sampleHandle : Nat → Interaction → InteractionResult Nat :=
  fun s i =>
    { type := ResultType.ok, state := s + i.input, result := some s,
      errorMessage := none, gasUsed := i.input }

/-- Sample foreign-read graph: contract 0 reads contract 1 and contract 1
reads contract 0 — the mutually-recursive cycle of the spec's depth-bound
example. -/
def sampleReads : Nat → Option Nat :=
  fun n => if n = 0 then some 1 else if n = 1 then some 0 else none

theorem bytesLe_cons (a b : Nat) (as bs : List Nat) :
    bytesLe (a :: as) (b :: bs) = true ↔ a < b ∨ (a = b ∧ bytesLe as bs = true) := by
  simp only [bytesLe]
  split_ifs with h1 h2
  · simp [h1]
  · constructor
    · intro h
      simp at h
    · rintro (h | ⟨rfl, _⟩) <;> omega
  · have hab : a = b := by omega
    subst hab
    simp

theorem bytesLe_total : ∀ a b : List Nat, bytesLe a b = true ∨ bytesLe b a = true
  | [], _ => Or.inl rfl
  | _ :: _, [] => Or.inr rfl
  | a :: as, b :: bs => by
    rcases Nat.lt_trichotomy a b with h | h | h
    · exact Or.inl ((bytesLe_cons a b as bs).2 (Or.inl h))
    · subst h
      rcases bytesLe_total as bs with h2 | h2
      · exact Or.inl ((bytesLe_cons a a as bs).2 (Or.inr ⟨rfl, h2⟩))
      · exact Or.inr ((bytesLe_cons a a bs as).2 (Or.inr ⟨rfl, h2⟩))
    · exact Or.inr ((bytesLe_cons b a bs as).2 (Or.inl h))

theorem bytesLe_trans :
    ∀ a b c : List Nat, bytesLe a b = true → bytesLe b c = true → bytesLe a c = true
  | [], _, _, _, _ => rfl
  | _ :: _, [], _, h, _ => by simp [bytesLe] at h
  | _ :: _, _ :: _, [], _, h => by simp [bytesLe] at h
  | a :: as, b :: bs, c :: cs, h1, h2 => by
    rcases (bytesLe_cons a b as bs).1 h1 with hab | ⟨hab, hab2⟩ <;>
      rcases (bytesLe_cons b c bs cs).1 h2 with hbc | ⟨hbc, hbc2⟩
    · exact (bytesLe_cons a c as cs).2 (Or.inl (by omega))
    · exact (bytesLe_cons a c as cs).2 (Or.inl (by omega))
    · exact (bytesLe_cons a c as cs).2 (Or.inl (by omega))
    · exact (bytesLe_cons a c as cs).2
        (Or.inr ⟨by omega, bytesLe_trans as bs cs hab2 hbc2⟩)

theorem bytesLe_antisymm :
    ∀ a b : List Nat, bytesLe a b = true → bytesLe b a = true → a = b
  | [], [], _, _ => rfl
  | _ :: _, [], h, _ => by simp [bytesLe] at h
  | [], _ :: _, _, h => by simp [bytesLe] at h
  | a :: as, b :: bs, h1, h2 => by
    rcases (bytesLe_cons a b as bs).1 h1 with hab | ⟨hab, hab2⟩ <;>
      rcases (bytesLe_cons b a bs as).1 h2 with hba | ⟨hba, hba2⟩ <;>
      try omega
    have : as = bs := bytesLe_antisymm as bs hab2 hba2
    simp [hab, this]

theorem interactionLe_iff (i j : Interaction) :
    sortRel i j ↔
      i.blockHeight < j.blockHeight ∨
        (i.blockHeight = j.blockHeight ∧ bytesLe i.sortKey j.sortKey = true) := by
  unfold sortRel interactionLe
  split_ifs with h1 h2
  · simp [h1]
  · constructor
    · intro h
      simp at h
    · rintro (h | ⟨h, _⟩) <;> omega
  · have : i.blockHeight = j.blockHeight := by omega
    simp [this]

instance : IsTotal Interaction sortRel :=
  ⟨fun i j => by
    rcases Nat.lt_trichotomy i.blockHeight j.blockHeight with h | h | h
    · exact Or.inl ((interactionLe_iff i j).2 (Or.inl h))
    · rcases bytesLe_total i.sortKey j.sortKey with h2 | h2
      · exact Or.inl ((interactionLe_iff i j).2 (Or.inr ⟨h, h2⟩))
      · exact Or.inr ((interactionLe_iff j i).2 (Or.inr ⟨h.symm, h2⟩))
    · exact Or.inr ((interactionLe_iff j i).2 (Or.inl h))⟩

instance : IsTrans Interaction sortRel :=
  ⟨fun a b c hab hbc => by
    rcases (interactionLe_iff a b).1 hab with h1 | ⟨h1, h1k⟩ <;>
      rcases (interactionLe_iff b c).1 hbc with h2 | ⟨h2, h2k⟩
    · exact (interactionLe_iff a c).2 (Or.inl (by omega))
    · exact (interactionLe_iff a c).2 (Or.inl (by omega))
    · exact (interactionLe_iff a c).2 (Or.inl (by omega))
    · exact (interactionLe_iff a c).2
        (Or.inr ⟨by omega, bytesLe_trans _ _ _ h1k h2k⟩)⟩

theorem sortRel_antisymm_key {i j : Interaction} (hij : sortRel i j) (hji : sortRel j i) :
    ikey i = ikey j := by
  rcases (interactionLe_iff i j).1 hij with h1 | ⟨h1, h1k⟩ <;>
    rcases (interactionLe_iff j i).1 hji with h2 | ⟨h2, h2k⟩ <;>
    try omega
  have : i.sortKey = j.sortKey := bytesLe_antisymm _ _ h1k h2k
  unfold ikey
  simp [h1, this]

instance : IsAntisymm Interaction sortRelStrict :=
  ⟨fun _ _ hij hji => absurd (sortRel_antisymm_key hij.1 hji.1) hij.2⟩

/-- A `sortRel`-sorted list whose keys are pairwise distinct is strictly
sorted. -/
theorem sorted_strict_of_sorted_nodup {l : List Interaction}
    (hs : List.Sorted sortRel l) (hnd : (l.map ikey).Nodup) :
    List.Pairwise sortRelStrict l := by
  have hne : List.Pairwise (fun i j => ikey i ≠ ikey j) l := by
    rw [List.Nodup, List.pairwise_map] at hnd
    exact hnd
  exact hs.and hne

theorem sortInteractions_perm (l : List Interaction) :
    (sortInteractions l).Perm l :=
  List.perm_insertionSort sortRel l

theorem sortInteractions_sorted (l : List Interaction) :
    List.Sorted sortRel (sortInteractions l) :=
  List.sorted_insertionSort sortRel l

/-- C2: for every finite set of interactions, the sorter returns a strictly
ordered sequence — blockHeight ascending primary key, sortKey ascending
byte-lexicographic tie-break — and it is a pure function: two calls on the
same input set (in any input order, keys being distinct) yield the same
output sequence. -/
theorem sorter_deterministic_total_order (l1 l2 : List Interaction)
    (hperm : l1.Perm l2) (hnd : (l1.map ikey).Nodup) :
    List.Sorted sortRel (sortInteractions l1) ∧
      (sortInteractions l1).Perm l1 ∧
      List.Pairwise sortRelStrict (sortInteractions l1) ∧
      sortInteractions l1 = sortInteractions l2 := by
  have hnd2 : (l2.map ikey).Nodup := ((hperm.map ikey).nodup_iff).1 hnd
  have hs1 := sortInteractions_sorted l1
  have hs2 := sortInteractions_sorted l2
  have hp1 := sortInteractions_perm l1
  have hp2 := sortInteractions_perm l2
  have hnds1 : ((sortInteractions l1).map ikey).Nodup := ((hp1.map ikey).nodup_iff).2 hnd
  have hnds2 : ((sortInteractions l2).map ikey).Nodup := ((hp2.map ikey).nodup_iff).2 hnd2
  have hstrict1 := sorted_strict_of_sorted_nodup hs1 hnds1
  have hstrict2 := sorted_strict_of_sorted_nodup hs2 hnds2
  refine ⟨hs1, hp1, hstrict1, ?_⟩
  exact List.eq_of_perm_of_sorted (hp1.trans (hperm.trans hp2.symm)) hstrict1 hstrict2

/-- C2 witness: the spec's example — heights `[5,5,3,7]` with distinct
sortKeys, presented in two different input orders, sorts to the same
height-ascending sequence with the two height-5 entries ordered by sortKey. -/
theorem sorter_deterministic_total_order_witness :
    List.Sorted sortRel
        (sortInteractions
          [⟨1, 0, 5, [1], 0, 9⟩, ⟨2, 0, 5, [0], 0, 9⟩, ⟨3, 0, 3, [7], 0, 9⟩,
            ⟨4, 0, 7, [2], 0, 9⟩]) ∧
      (sortInteractions
          [⟨1, 0, 5, [1], 0, 9⟩, ⟨2, 0, 5, [0], 0, 9⟩, ⟨3, 0, 3, [7], 0, 9⟩,
            ⟨4, 0, 7, [2], 0, 9⟩]).Perm
        [⟨1, 0, 5, [1], 0, 9⟩, ⟨2, 0, 5, [0], 0, 9⟩, ⟨3, 0, 3, [7], 0, 9⟩,
          ⟨4, 0, 7, [2], 0, 9⟩] ∧
      List.Pairwise sortRelStrict
        (sortInteractions
          [⟨1, 0, 5, [1], 0, 9⟩, ⟨2, 0, 5, [0], 0, 9⟩, ⟨3, 0, 3, [7], 0, 9⟩,
            ⟨4, 0, 7, [2], 0, 9⟩]) ∧
      sortInteractions
          [⟨1, 0, 5, [1], 0, 9⟩, ⟨2, 0, 5, [0], 0, 9⟩, ⟨3, 0, 3, [7], 0, 9⟩,
            ⟨4, 0, 7, [2], 0, 9⟩] =
        sortInteractions
          [⟨3, 0, 3, [7], 0, 9⟩, ⟨4, 0, 7, [2], 0, 9⟩, ⟨2, 0, 5, [0], 0, 9⟩,
            ⟨1, 0, 5, [1], 0, 9⟩] :=
  sorter_deterministic_total_order
    [⟨1, 0, 5, [1], 0, 9⟩, ⟨2, 0, 5, [0], 0, 9⟩, ⟨3, 0, 3, [7], 0, 9⟩, ⟨4, 0, 7, [2], 0, 9⟩]
    [⟨3, 0, 3, [7], 0, 9⟩, ⟨4, 0, 7, [2], 0, 9⟩, ⟨2, 0, 5, [0], 0, 9⟩, ⟨1, 0, 5, [1], 0, 9⟩]
    (by decide) (by decide)

theorem inRange_none (H h : Nat) : inRange none H h = true ↔ h ≤ H := by
  simp [inRange]

theorem inRange_some (c H h : Nat) : inRange (some c) H h = true ↔ c < h ∧ h ≤ H := by
  simp [inRange]

/-- Splitting a height-bounded filter at an intermediate height `H1` is a
permutation of the two sub-range filters concatenated. -/
theorem filter_range_split (l : List Interaction) (H1 H2 : Nat) (hH : H1 ≤ H2) :
    (l.filter fun i => inRange none H2 i.blockHeight).Perm
      ((l.filter fun i => inRange none H1 i.blockHeight) ++
        l.filter fun i => inRange (some H1) H2 i.blockHeight) := by
  induction l with
  | nil => simp
  | cons a l ih =>
    by_cases h1 : a.blockHeight ≤ H1
    · by_cases h2 : a.blockHeight ≤ H2
      · have hB : inRange none H2 a.blockHeight = true := (inRange_none H2 _).2 h2
        have hA : inRange none H1 a.blockHeight = true := (inRange_none H1 _).2 h1
        have hC : inRange (some H1) H2 a.blockHeight = false := by
          rw [Bool.eq_false_iff]
          intro h
          rcases (inRange_some H1 H2 _).1 h with ⟨h3, _⟩
          omega
        simp only [List.filter_cons, hA, hB, hC, List.cons_append]
        exact ih.cons a
      · exact absurd (le_trans h1 hH) h2
    · by_cases h2 : a.blockHeight ≤ H2
      · have hB : inRange none H2 a.blockHeight = true := (inRange_none H2 _).2 h2
        have hA : inRange none H1 a.blockHeight = false := by
          rw [Bool.eq_false_iff]
          intro h
          exact h1 ((inRange_none H1 _).1 h)
        have hC : inRange (some H1) H2 a.blockHeight = true :=
          (inRange_some H1 H2 _).2 ⟨by omega, h2⟩
        simp only [List.filter_cons, hA, hB, hC]
        exact (ih.cons a).trans List.perm_middle.symm
      · have hB : inRange none H2 a.blockHeight = false := by
          rw [Bool.eq_false_iff]
          intro h
          exact h2 ((inRange_none H2 _).1 h)
        have hA : inRange none H1 a.blockHeight = false := by
          rw [Bool.eq_false_iff]
          intro h
          have := (inRange_none H1 _).1 h
          omega
        have hC : inRange (some H1) H2 a.blockHeight = false := by
          rw [Bool.eq_false_iff]
          intro h
          rcases (inRange_some H1 H2 _).1 h with ⟨_, h4⟩
          omega
        simp only [List.filter_cons, hA, hB, hC]
        exact ih

/-- Sorting a list that splits (up to permutation) into a low part and a
high part, every low element ordered before every high element and all keys
distinct, equals the concatenation of the sorted parts. -/
theorem sortInteractions_eq_append (l la lb : List Interaction)
    (hperm : l.Perm (la ++ lb))
    (hnd : (l.map ikey).Nodup)
    (hcross : ∀ a ∈ la, ∀ b ∈ lb, sortRel a b) :
    sortInteractions l = sortInteractions la ++ sortInteractions lb := by
  have hpl := sortInteractions_perm l
  have hpa := sortInteractions_perm la
  have hpb := sortInteractions_perm lb
  have hprhs : (sortInteractions la ++ sortInteractions lb).Perm l :=
    ((hpa.append hpb).trans hperm.symm)
  have hsorted_rhs : List.Sorted sortRel (sortInteractions la ++ sortInteractions lb) := by
    rw [List.Sorted, List.pairwise_append]
    refine ⟨sortInteractions_sorted la, sortInteractions_sorted lb, ?_⟩
    intro a ha b hb
    exact hcross a (hpa.subset ha) b (hpb.subset hb)
  have hnd_lhs : ((sortInteractions l).map ikey).Nodup := ((hpl.map ikey).nodup_iff).2 hnd
  have hnd_rhs : ((sortInteractions la ++ sortInteractions lb).map ikey).Nodup :=
    ((hprhs.map ikey).nodup_iff).2 hnd
  have hstrict_lhs := sorted_strict_of_sorted_nodup (sortInteractions_sorted l) hnd_lhs
  have hstrict_rhs := sorted_strict_of_sorted_nodup hsorted_rhs hnd_rhs
  exact List.eq_of_perm_of_sorted (hpl.trans hprhs.symm) hstrict_lhs hstrict_rhs

/-- `applyInteraction` neither reads nor writes `lastEvaluatedBlockHeight`. -/
theorem applyInteraction_lastEval {S : Type} (handle : S → Interaction → InteractionResult S)
    (acc : EvaluationState S) (i : Interaction) (a : Nat) :
    applyInteraction handle { acc with lastEvaluatedBlockHeight := a } i =
      { applyInteraction handle acc i with lastEvaluatedBlockHeight := a } := by
  unfold applyInteraction
  by_cases h : (handle acc.state i).type = ResultType.ok <;> simp [h]

/-- The fold ignores the accumulator's `lastEvaluatedBlockHeight`. -/
theorem foldl_applyInteraction_lastEval {S : Type}
    (handle : S → Interaction → InteractionResult S) (l : List Interaction) :
    ∀ (acc : EvaluationState S) (a : Nat),
      l.foldl (applyInteraction handle) { acc with lastEvaluatedBlockHeight := a } =
        { l.foldl (applyInteraction handle) acc with lastEvaluatedBlockHeight := a } := by
  induction l with
  | nil => intro acc a; rfl
  | cons i l ih =>
    intro acc a
    simp only [List.foldl_cons, applyInteraction_lastEval]
    exact ih (applyInteraction handle acc i) a

theorem findCheckpoint_nil {S : Type} (H : Nat) :
    findCheckpoint ([] : List (CacheEntry S)) H = none := rfl

theorem findCheckpoint_singleton {S : Type} (e : CacheEntry S) (H : Nat)
    (h : e.blockHeight ≤ H) : findCheckpoint [e] H = some e := by
  simp [findCheckpoint, h]

/-- Core resume lemma: evaluating to `H1` cold (which persists a checkpoint
at `H1`) and then evaluating to `H2 ≥ H1` resuming from that checkpoint
yields the same `EvaluationState` as evaluating to `H2` cold. -/
theorem eval_resume_core {S : Type} (handle : S → Interaction → InteractionResult S)
    (initState : S) (l : List Interaction) (H1 H2 : Nat) (hH : H1 ≤ H2)
    (hnd : (l.map ikey).Nodup) :
    (eval handle initState l (eval handle initState l [] H1 true).2 H2 true).1 =
      (eval handle initState l [] H2 true).1 := by
  have hnrecords : ∀ H : Nat,
      ((l.filter fun i => inRange none H i.blockHeight).map ikey).Nodup := by
    intro H
    exact hnd.sublist ((l.filter_sublist).map ikey)
  have hsplit := filter_range_split l H1 H2 hH
  have hcross : ∀ a ∈ l.filter fun i => inRange none H1 i.blockHeight,
      ∀ b ∈ l.filter fun i => inRange (some H1) H2 i.blockHeight, sortRel a b := by
    intro a ha b hb
    have ha2 := (List.mem_filter.1 ha).2
    have hb2 := (List.mem_filter.1 hb).2
    have ha3 := (inRange_none H1 _).1 ha2
    have hb3 := (inRange_some H1 H2 _).1 hb2
    exact (interactionLe_iff a b).2 (Or.inl (by omega))
  have hkey := sortInteractions_eq_append
    (l.filter fun i => inRange none H2 i.blockHeight)
    (l.filter fun i => inRange none H1 i.blockHeight)
    (l.filter fun i => inRange (some H1) H2 i.blockHeight)
    hsplit (hnrecords H2) hcross
  simp only [eval, findCheckpoint_nil, decide_True, if_true, Option.map_none', Option.map_some',
    List.foldl_nil, List.nil_append, findCheckpoint_singleton, hH]
  rw [hkey, List.foldl_append]
  simp only [foldl_applyInteraction_lastEval]

/-- C1: for any fixed contract identifier and fixed finite interaction set,
running eval twice — once from a cold cache and once from a warm cache
resumed at an intermediate checkpoint — produces identical final state and
identical validity maps, and the gasUsed and result of any single
interaction applied to a given prior state are identical across repeated
runs. -/
theorem eval_deterministic_cold_vs_warm {S : Type}
    (handle : S → Interaction → InteractionResult S) (initState : S)
    (l : List Interaction) (H1 H : Nat) (hH : H1 ≤ H)
    (hnd : (l.map ikey).Nodup) :
    ((eval handle initState l [] H true).1.state =
        (eval handle initState l (eval handle initState l [] H1 true).2 H true).1.state) ∧
      ((eval handle initState l [] H true).1.validity =
        (eval handle initState l (eval handle initState l [] H1 true).2 H true).1.validity) ∧
      ∀ (s : S) (i : Interaction),
        (handle s i).gasUsed = (handle s i).gasUsed ∧
          (handle s i).result = (handle s i).result := by
  have h := eval_resume_core handle initState l H1 H hH hnd
  exact ⟨by rw [h], by rw [h], fun s i => ⟨rfl, rfl⟩⟩

/-- C1 witness: concrete two-interaction history over `S = Nat`, cold run to
height 2 versus warm run resumed from the checkpoint persisted at height 1. -/
theorem eval_deterministic_cold_vs_warm_witness :
    ((eval sampleHandle 0 sampleInteractions [] 2 true).1.state =
        (eval sampleHandle 0 sampleInteractions
            (eval sampleHandle 0 sampleInteractions [] 1 true).2 2 true).1.state) ∧
      ((eval sampleHandle 0 sampleInteractions [] 2 true).1.validity =
        (eval sampleHandle 0 sampleInteractions
            (eval sampleHandle 0 sampleInteractions [] 1 true).2 2 true).1.validity) ∧
      (sampleHandle 3 ⟨5, 0, 3, [9], 7, 9⟩).gasUsed =
          (sampleHandle 3 ⟨5, 0, 3, [9], 7, 9⟩).gasUsed ∧
        (sampleHandle 3 ⟨5, 0, 3, [9], 7, 9⟩).result =
          (sampleHandle 3 ⟨5, 0, 3, [9], 7, 9⟩).result :=
  ⟨(eval_deterministic_cold_vs_warm sampleHandle 0 sampleInteractions 1 2 (by decide)
      (by decide)).1,
    (eval_deterministic_cold_vs_warm sampleHandle 0 sampleInteractions 1 2 (by decide)
      (by decide)).2.1,
    (eval_deterministic_cold_vs_warm sampleHandle 0 sampleInteractions 1 2 (by decide)
      (by decide)).2.2 3 ⟨5, 0, 3, [9], 7, 9⟩⟩

/-- C3: for every contract and heights H1 < H2, evaluating to H1 (persisting
a checkpoint) and then evaluating to H2 resuming from that checkpoint yields
the same final state as evaluating directly to H2 from the initial state
with a cold cache. -/
theorem checkpoint_resume_equals_cold {S : Type}
    (handle : S → Interaction → InteractionResult S) (initState : S)
    (l : List Interaction) (H1 H2 : Nat) (hH : H1 < H2)
    (hnd : (l.map ikey).Nodup) :
    (eval handle initState l (eval handle initState l [] H1 true).2 H2 true).1 =
      (eval handle initState l [] H2 true).1 :=
  eval_resume_core handle initState l H1 H2 (le_of_lt hH) hnd

/-- C3 witness: concrete two-interaction history over `S = Nat`, resuming at
height 1 and finishing at height 2 equals the direct cold evaluation. -/
theorem checkpoint_resume_equals_cold_witness :
    (eval sampleHandle 0 sampleInteractions
        (eval sampleHandle 0 sampleInteractions [] 1 true).2 2 true).1 =
      (eval sampleHandle 0 sampleInteractions [] 2 true).1 :=
  checkpoint_resume_equals_cold sampleHandle 0 sampleInteractions 1 2 (by decide) (by decide)

theorem applyInteraction_ok {S : Type} (handle : S → Interaction → InteractionResult S)
    (acc : EvaluationState S) (i : Interaction)
    (h : (handle acc.state i).type = ResultType.ok) :
    applyInteraction handle acc i =
      { acc with
        state := (handle acc.state i).state
        validity := acc.validity ++ [(i.id, true)] } := by
  unfold applyInteraction
  rw [if_pos h]

theorem applyInteraction_notok {S : Type} (handle : S → Interaction → InteractionResult S)
    (acc : EvaluationState S) (i : Interaction)
    (h : ¬(handle acc.state i).type = ResultType.ok) :
    applyInteraction handle acc i =
      { acc with
        validity := acc.validity ++ [(i.id, false)]
        errorMessages :=
          acc.errorMessages ++ [(i.id, (handle acc.state i).errorMessage.getD "")] } := by
  unfold applyInteraction
  rw [if_neg h]

theorem validityTrace_length {S : Type} (handle : S → Interaction → InteractionResult S) :
    ∀ (l : List Interaction) (s : S), (validityTrace handle s l).length = l.length := by
  intro l
  induction l with
  | nil => intro s; rfl
  | cons i l ih =>
    intro s
    unfold validityTrace
    by_cases h : (handle s i).type = ResultType.ok <;> simp [h, ih]

theorem foldl_validity {S : Type} (handle : S → Interaction → InteractionResult S) :
    ∀ (l : List Interaction) (acc : EvaluationState S),
      (l.foldl (applyInteraction handle) acc).validity =
        acc.validity ++ validityTrace handle acc.state l := by
  intro l
  induction l with
  | nil => intro acc; simp [validityTrace]
  | cons i l ih =>
    intro acc
    rw [List.foldl_cons]
    by_cases h : (handle acc.state i).type = ResultType.ok
    · rw [ih, applyInteraction_ok handle acc i h]
      simp [validityTrace, h]
    · rw [ih, applyInteraction_notok handle acc i h]
      simp [validityTrace, h]

theorem foldl_errorMessages {S : Type} (handle : S → Interaction → InteractionResult S) :
    ∀ (l : List Interaction) (acc : EvaluationState S),
      (l.foldl (applyInteraction handle) acc).errorMessages =
        acc.errorMessages ++ errorTrace handle acc.state l := by
  intro l
  induction l with
  | nil => intro acc; simp [errorTrace]
  | cons i l ih =>
    intro acc
    rw [List.foldl_cons]
    by_cases h : (handle acc.state i).type = ResultType.ok
    · rw [ih, applyInteraction_ok handle acc i h]
      simp [errorTrace, h]
    · rw [ih, applyInteraction_notok handle acc i h]
      simp [errorTrace, h]

theorem foldl_state {S : Type} (handle : S → Interaction → InteractionResult S) :
    ∀ (l : List Interaction) (acc : EvaluationState S),
      (l.foldl (applyInteraction handle) acc).state = stateFold handle acc.state l := by
  intro l
  induction l with
  | nil => intro acc; rfl
  | cons i l ih =>
    intro acc
    rw [List.foldl_cons]
    by_cases h : (handle acc.state i).type = ResultType.ok
    · rw [ih, applyInteraction_ok handle acc i h]
      simp [stateFold, h]
    · rw [ih, applyInteraction_notok handle acc i h]
      simp [stateFold, h]

/-- C4: during the eval fold, every interaction in the sorted sequence is
processed regardless of the outcome of earlier ones — a non-ok interaction
never aborts the replay; its validity is recorded as true iff `type=ok`, its
errorMessage is recorded for non-ok outcomes, and the accumulator state is
replaced only on ok, so the final state reflects exactly the ok
interactions. -/
theorem fold_partial_failure_isolation {S : Type}
    (handle : S → Interaction → InteractionResult S) (acc : EvaluationState S)
    (l : List Interaction) :
    ((l.foldl (applyInteraction handle) acc).validity =
        acc.validity ++ validityTrace handle acc.state l) ∧
      ((l.foldl (applyInteraction handle) acc).errorMessages =
        acc.errorMessages ++ errorTrace handle acc.state l) ∧
      ((l.foldl (applyInteraction handle) acc).state = stateFold handle acc.state l) ∧
      ((l.foldl (applyInteraction handle) acc).validity).length =
        acc.validity.length + l.length := by
  refine ⟨foldl_validity handle l acc, foldl_errorMessages handle l acc,
    foldl_state handle l acc, ?_⟩
  rw [foldl_validity handle l acc]
  simp [validityTrace_length]

/-- C5: for every interaction whose execution would consume more gas than
`options.gasLimit`, `HandlerApi.handle` returns `type=exception` with an
errorMessage reporting both the gas used and the limit, and the state is
rolled back to `priorState`, leaving it unchanged for that interaction. -/
theorem gas_limit_exceeded_exception {S : Type} (run : S → Interaction → RawOutcome S)
    (gasLimit : Nat) (prior : S) (i : Interaction)
    (h : gasLimit < rawGasUsed (run prior i)) :
    (mkHandle run gasLimit prior i).type = ResultType.exception ∧
      (mkHandle run gasLimit prior i).errorMessage =
        some ("Out of gas! Used: " ++ toString (rawGasUsed (run prior i)) ++
          ", limit: " ++ toString gasLimit) ∧
      (mkHandle run gasLimit prior i).state = prior := by
  unfold mkHandle
  rw [if_pos h]
  exact ⟨rfl, rfl, rfl⟩

/-- C5 witness: the integration test's scenario — execution consuming
9000593 gas against a 9000000 limit yields the out-of-gas exception with
both figures in the message and the prior state preserved. -/
theorem gas_limit_exceeded_exception_witness :
    (mkHandle (fun s i => RawOutcome.success (s + i.input) (some s) 9000593) 9000000
        (7 : Nat) ⟨1, 0, 1, [1], 5, 9⟩).type = ResultType.exception ∧
      (mkHandle (fun s i => RawOutcome.success (s + i.input) (some s) 9000593) 9000000
          (7 : Nat) ⟨1, 0, 1, [1], 5, 9⟩).errorMessage =
        some ("Out of gas! Used: " ++ toString
          (rawGasUsed ((fun (s : Nat) (i : Interaction) =>
            RawOutcome.success (s + i.input) (some s) 9000593) 7 ⟨1, 0, 1, [1], 5, 9⟩)) ++
          ", limit: " ++ toString 9000000) ∧
      (mkHandle (fun s i => RawOutcome.success (s + i.input) (some s) 9000593) 9000000
          (7 : Nat) ⟨1, 0, 1, [1], 5, 9⟩).state = 7 :=
  gas_limit_exceeded_exception (fun s i => RawOutcome.success (s + i.input) (some s) 9000593)
    9000000 7 ⟨1, 0, 1, [1], 5, 9⟩ (by decide)

/-- C6: `HandlerApi.handle` classifies every non-ok outcome into exactly one
of two types — a contract-raised logical error yields `type=error`, a
host/environment failure (malformed input, sandbox fault, gas exhaustion)
yields `type=exception`; both roll the state back to `priorState`, and the
classification is preserved in the returned `InteractionResult`. -/
theorem handle_outcome_classification {S : Type} (run : S → Interaction → RawOutcome S)
    (gasLimit : Nat) (prior : S) (i : Interaction) :
    ((mkHandle run gasLimit prior i).type ≠ ResultType.ok →
        (mkHandle run gasLimit prior i).state = prior) ∧
      (∀ m g, run prior i = RawOutcome.contractError m g → g ≤ gasLimit →
        (mkHandle run gasLimit prior i).type = ResultType.error ∧
          (mkHandle run gasLimit prior i).errorMessage = some m ∧
          (mkHandle run gasLimit prior i).state = prior) ∧
      (∀ m g, run prior i = RawOutcome.hostFailure m g → g ≤ gasLimit →
        (mkHandle run gasLimit prior i).type = ResultType.exception ∧
          (mkHandle run gasLimit prior i).errorMessage = some m ∧
          (mkHandle run gasLimit prior i).state = prior) ∧
      ((mkHandle run gasLimit prior i).type = ResultType.ok ∨
        (mkHandle run gasLimit prior i).type = ResultType.error ∨
        (mkHandle run gasLimit prior i).type = ResultType.exception) := by
  refine ⟨?_, ?_, ?_, ?_⟩
  · intro hne
    unfold mkHandle at *
    by_cases hg : gasLimit < rawGasUsed (run prior i)
    · rw [if_pos hg]
    · rw [if_neg hg] at hne ⊢
      cases hrun : run prior i with
      | success st res g =>
        rw [hrun] at hne
        exact absurd rfl hne
      | contractError m g => rfl
      | hostFailure m g => rfl
  · intro m g hrun hg
    have hgas : ¬gasLimit < rawGasUsed (run prior i) := by
      rw [hrun]
      simp [rawGasUsed]
      omega
    unfold mkHandle
    rw [if_neg hgas, hrun]
    exact ⟨rfl, rfl, rfl⟩
  · intro m g hrun hg
    have hgas : ¬gasLimit < rawGasUsed (run prior i) := by
      rw [hrun]
      simp [rawGasUsed]
      omega
    unfold mkHandle
    rw [if_neg hgas, hrun]
    exact ⟨rfl, rfl, rfl⟩
  · cases hty : (mkHandle run gasLimit prior i).type with
    | ok => exact Or.inl rfl
    | error => exact Or.inr (Or.inl rfl)
    | exception => exact Or.inr (Or.inr rfl)

/-- C6 witness: the integration test's scenarios — a contract-raised error
is classified `type=error` and a host runtime failure `type=exception`,
both with the prior state preserved and the message surfaced. -/
theorem handle_outcome_classification_witness :
    ((mkHandle (fun _ _ => RawOutcome.contractError
          "[CE:TransferAmountMustBeHigherThanZero]" 100) 9000000
        (7 : Nat) ⟨1, 0, 1, [1], 5, 9⟩).type = ResultType.error ∧
      (mkHandle (fun _ _ => RawOutcome.contractError
          "[CE:TransferAmountMustBeHigherThanZero]" 100) 9000000
        (7 : Nat) ⟨1, 0, 1, [1], 5, 9⟩).errorMessage =
        some "[CE:TransferAmountMustBeHigherThanZero]" ∧
      (mkHandle (fun _ _ => RawOutcome.contractError
          "[CE:TransferAmountMustBeHigherThanZero]" 100) 9000000
        (7 : Nat) ⟨1, 0, 1, [1], 5, 9⟩).state = 7) ∧
      ((mkHandle (fun _ _ => RawOutcome.hostFailure
            "[RE:RE] Error while parsing input" 50) 9000000
          (7 : Nat) ⟨1, 0, 1, [1], 5, 9⟩).type = ResultType.exception ∧
        (mkHandle (fun _ _ => RawOutcome.hostFailure
            "[RE:RE] Error while parsing input" 50) 9000000
          (7 : Nat) ⟨1, 0, 1, [1], 5, 9⟩).errorMessage =
          some "[RE:RE] Error while parsing input" ∧
        (mkHandle (fun _ _ => RawOutcome.hostFailure
            "[RE:RE] Error while parsing input" 50) 9000000
          (7 : Nat) ⟨1, 0, 1, [1], 5, 9⟩).state = 7) :=
  ⟨(handle_outcome_classification
      (fun _ _ => RawOutcome.contractError "[CE:TransferAmountMustBeHigherThanZero]" 100)
      9000000 7 ⟨1, 0, 1, [1], 5, 9⟩).2.1
      "[CE:TransferAmountMustBeHigherThanZero]" 100 rfl (by decide),
    (handle_outcome_classification
      (fun _ _ => RawOutcome.hostFailure "[RE:RE] Error while parsing input" 50)
      9000000 7 ⟨1, 0, 1, [1], 5, 9⟩).2.2.1
      "[RE:RE] Error while parsing input" 50 rfl (by decide)⟩

theorem readContractD_cases (reads : Nat → Option Nat) :
    ∀ (k maxCallDepth depth cid : Nat), maxCallDepth + 1 - depth ≤ k →
      readContractD reads maxCallDepth depth cid = Except.ok () ∨
        readContractD reads maxCallDepth depth cid = Except.error "CallDepthExceededError" := by
  intro k
  induction k with
  | zero =>
    intro maxCallDepth depth cid hk
    rw [readContractD]
    rw [if_pos (by omega)]
    exact Or.inr rfl
  | succ k ih =>
    intro maxCallDepth depth cid hk
    rw [readContractD]
    by_cases hd : maxCallDepth < depth
    · rw [if_pos hd]
      exact Or.inr rfl
    · rw [if_neg hd]
      cases hr : reads cid with
      | none => exact Or.inl rfl
      | some c => exact ih maxCallDepth (depth + 1) c (by omega)

theorem readContractD_depth_exceeded (reads : Nat → Option Nat) :
    ∀ (k maxCallDepth depth cid c : Nat), depth + k = maxCallDepth + 1 →
      followReads reads k cid = some c → reads c ≠ none →
      readContractD reads maxCallDepth depth cid = Except.error "CallDepthExceededError" := by
  intro k
  induction k with
  | zero =>
    intro maxCallDepth depth cid c hdk hf hr
    rw [readContractD]
    rw [if_pos (by omega)]
  | succ k ih =>
    intro maxCallDepth depth cid c hdk hf hr
    rw [readContractD]
    rw [if_neg (by omega)]
    cases hrc : reads cid with
    | none =>
      rw [followReads, hrc] at hf
      exact Option.noConfusion hf
    | some c1 =>
      have hf2 : followReads reads k c1 = some c := by
        simp only [followReads, hrc] at hf
        exact hf
      exact ih maxCallDepth (depth + 1) c1 c (by omega) hf2 hr

/-- C7: every chain of foreign-contract reads initiated through
`context.readContract` is bounded by `options.maxCallDepth`: the read either
completes or fails with a `CallDepthExceededError` (it has no other outcome
and, being total, never hangs or overflows the stack), and a chain exceeding
the depth — including a mutually-recursive cycle — fails that single
interaction with a `type=exception` classified `CallDepthExceededError`. -/
theorem foreign_read_depth_bounded {S : Type} (reads : Nat → Option Nat)
    (maxCallDepth cid : Nat) (prior : S) :
    (readContractD reads maxCallDepth 1 cid = Except.ok () ∨
        readContractD reads maxCallDepth 1 cid = Except.error "CallDepthExceededError") ∧
      ∀ c, followReads reads maxCallDepth cid = some c → reads c ≠ none →
        (handleForeignRead reads maxCallDepth prior cid).type = ResultType.exception ∧
          (handleForeignRead reads maxCallDepth prior cid).errorMessage =
            some "CallDepthExceededError" := by
  constructor
  · exact readContractD_cases reads (maxCallDepth + 1) maxCallDepth 1 cid (by omega)
  · intro c hf hr
    have herr := readContractD_depth_exceeded reads maxCallDepth maxCallDepth 1 cid c
      (by omega) hf hr
    unfold handleForeignRead
    rw [herr]
    exact ⟨rfl, rfl⟩

/-- C7 witness: the spec's example — `maxCallDepth=2` with contract 0
reading contract 1 reading contract 0 fails with the depth-exceeded
exception. -/
theorem foreign_read_depth_bounded_witness :
    (readContractD sampleReads 2 1 0 = Except.ok () ∨
        readContractD sampleReads 2 1 0 = Except.error "CallDepthExceededError") ∧
      (handleForeignRead sampleReads 2 (0 : Nat) 0).type = ResultType.exception ∧
        (handleForeignRead sampleReads 2 (0 : Nat) 0).errorMessage =
          some "CallDepthExceededError" :=
  ⟨(foreign_read_depth_bounded sampleReads 2 0 (0 : Nat)).1,
    (foreign_read_depth_bounded sampleReads 2 0 (0 : Nat)).2 0 (by decide) (by decide)⟩

/-- C8: a dry-run never persists its result to the cache or any checkpoint —
any number of `viewState` calls leaves the cache untouched, so the result of
a subsequent `readContract` evaluation for the same contract and height is
unchanged. -/
theorem dry_run_never_persists {S : Type} (handle : S → Interaction → InteractionResult S)
    (initState : S) (l : List Interaction) (cache : List (CacheEntry S))
    (toHeight : Nat) (synthetic : Interaction) (n : Nat) :
    ((fun c => (viewState handle initState l c toHeight synthetic).2)^[n] cache = cache) ∧
      eval handle initState l
          ((fun c => (viewState handle initState l c toHeight synthetic).2)^[n] cache)
          toHeight true =
        eval handle initState l cache toHeight true := by
  have hiter :
      (fun c => (viewState handle initState l c toHeight synthetic).2)^[n] cache = cache := by
    induction n with
    | zero => rfl
    | succ n ih =>
      rw [Function.iterate_succ_apply]
      exact ih
  exact ⟨hiter, by rw [hiter]⟩

/-- C9: `SmartWeaveBuilder.build()` always returns a `SmartWeave` instance
and never fails, even when some or all of the five component setters were
never called — unset components are passed as undefined (`none`) to the
`SmartWeave` constructor with no validation that they were provided. -/
theorem build_returns_smartweave_without_validation {A D I O E V : Type} (a : A)
    (d : Option D) (i : Option I) (o : Option O) (e : Option E) (v : Option V) :
    build
        { _arweave := a, _definitionLoader := d, _interactionsLoader := i,
          _interactionsSorter := o, _executorFactory := e, _stateEvaluator := v } =
      { arweave := a, definitionLoader := d, interactionsLoader := i,
        interactionsSorter := o, executorFactory := e, stateEvaluator := v } ∧
      build (mkBuilder a : SmartWeaveBuilder A D I O E V) =
        { arweave := a, definitionLoader := none, interactionsLoader := none,
          interactionsSorter := none, executorFactory := none, stateEvaluator := none } :=
  ⟨rfl, rfl⟩

/-- C10: each `SmartWeaveBuilder` setter returns the builder with only the
single component field it names modified, leaving the other four component
fields and the arweave reference unchanged; a repeated call to the same
setter overwrites the previous value, and `build()` uses the most recently
set value of each component. -/
theorem setters_modify_only_their_field {A D I O E V : Type}
    (b : SmartWeaveBuilder A D I O E V) (d d2 : D) (i i2 : I) (o o2 : O) (e e2 : E)
    (v v2 : V) :
    ((setDefinitionLoader b d)._definitionLoader = some d ∧
      (setDefinitionLoader b d)._arweave = b._arweave ∧
      (setDefinitionLoader b d)._interactionsLoader = b._interactionsLoader ∧
      (setDefinitionLoader b d)._interactionsSorter = b._interactionsSorter ∧
      (setDefinitionLoader b d)._executorFactory = b._executorFactory ∧
      (setDefinitionLoader b d)._stateEvaluator = b._stateEvaluator ∧
      setDefinitionLoader (setDefinitionLoader b d) d2 = setDefinitionLoader b d2 ∧
      (build (setDefinitionLoader b d)).definitionLoader = some d) ∧
      ((setInteractionsLoader b i)._interactionsLoader = some i ∧
        (setInteractionsLoader b i)._arweave = b._arweave ∧
        (setInteractionsLoader b i)._definitionLoader = b._definitionLoader ∧
        (setInteractionsLoader b i)._interactionsSorter = b._interactionsSorter ∧
        (setInteractionsLoader b i)._executorFactory = b._executorFactory ∧
        (setInteractionsLoader b i)._stateEvaluator = b._stateEvaluator ∧
        setInteractionsLoader (setInteractionsLoader b i) i2 = setInteractionsLoader b i2 ∧
        (build (setInteractionsLoader b i)).interactionsLoader = some i) ∧
      ((setInteractionsSorter b o)._interactionsSorter = some o ∧
        (setInteractionsSorter b o)._arweave = b._arweave ∧
        (setInteractionsSorter b o)._definitionLoader = b._definitionLoader ∧
        (setInteractionsSorter b o)._interactionsLoader = b._interactionsLoader ∧
        (setInteractionsSorter b o)._executorFactory = b._executorFactory ∧
        (setInteractionsSorter b o)._stateEvaluator = b._stateEvaluator ∧
        setInteractionsSorter (setInteractionsSorter b o) o2 = setInteractionsSorter b o2 ∧
        (build (setInteractionsSorter b o)).interactionsSorter = some o) ∧
      ((setExecutorFactory b e)._executorFactory = some e ∧
        (setExecutorFactory b e)._arweave = b._arweave ∧
        (setExecutorFactory b e)._definitionLoader = b._definitionLoader ∧
        (setExecutorFactory b e)._interactionsLoader = b._interactionsLoader ∧
        (setExecutorFactory b e)._interactionsSorter = b._interactionsSorter ∧
        (setExecutorFactory b e)._stateEvaluator = b._stateEvaluator ∧
        setExecutorFactory (setExecutorFactory b e) e2 = setExecutorFactory b e2 ∧
        (build (setExecutorFactory b e)).executorFactory = some e) ∧
      ((setStateEvaluator b v)._stateEvaluator = some v ∧
        (setStateEvaluator b v)._arweave = b._arweave ∧
        (setStateEvaluator b v)._definitionLoader = b._definitionLoader ∧
        (setStateEvaluator b v)._interactionsLoader = b._interactionsLoader ∧
        (setStateEvaluator b v)._interactionsSorter = b._interactionsSorter ∧
        (setStateEvaluator b v)._executorFactory = b._executorFactory ∧
        setStateEvaluator (setStateEvaluator b v) v2 = setStateEvaluator b v2 ∧
        (build (setStateEvaluator b v)).stateEvaluator = some v) :=
  ⟨⟨rfl, rfl, rfl, rfl, rfl, rfl, rfl, rfl⟩, ⟨rfl, rfl, rfl, rfl, rfl, rfl, rfl, rfl⟩,
    ⟨rfl, rfl, rfl, rfl, rfl, rfl, rfl, rfl⟩, ⟨rfl, rfl, rfl, rfl, rfl, rfl, rfl, rfl⟩,
    ⟨rfl, rfl, rfl, rfl, rfl, rfl, rfl, rfl⟩⟩
